import Mathlib

/-!
Verification of the ihex writer (`src/writer.rs`) against its specification.

Machine integers are embedded as `Nat` with explicit masking/modulus where
the Rust code casts (`as u8` becomes `% 256`; `u16`/`u32` fields carry
side conditions `< 2^16` / `< 2^32` where a claim needs them).  Fallible
Rust functions returning `Result` are embedded as `Except`.
-/

namespace Ihex

/-- Modelled from the spec: the `Record` enum of `src/record.rs` (the file is
not under `src/`; the variant set and field types are given by the spec's
data-model table in section 3 and agree with the exhaustive match in
`src/writer.rs`).  `u16`/`u32` fields become `Nat`, `Vec<u8>` becomes
`List Nat`. -/
inductive Record where
  | data (offset : Nat) (value : List Nat)
  | endOfFile
  | extendedSegmentAddress (address : Nat)
  | startSegmentAddress (cs : Nat) (ip : Nat)
  | extendedLinearAddress (address : Nat)
  | startLinearAddress (address : Nat)
  deriving DecidableEq, Repr

/-- Modelled from the spec: `Record::record_type` of `src/record.rs` (not under
`src/`): the fixed one-byte type code of each variant, from the type-code
table in section 3 (0x00 through 0x05). -/
def Record.record_type : Record → Nat
  | .data _ _ => 0x00
  | .endOfFile => 0x01
  | .extendedSegmentAddress _ => 0x02
  | .startSegmentAddress _ _ => 0x03
  | .extendedLinearAddress _ => 0x04
  | .startLinearAddress _ => 0x05

/-- Modelled from the spec: the `checksum` function of `src/checksum.rs` (not
under `src/`): the two's-complement of the sum of the bytes modulo 256,
`(0x100 - (sum_of_bytes mod 0x100)) mod 0x100` (section 4.1). -/
def checksum (data : List Nat) : Nat :=
  (0x100 - data.sum % 0x100) % 0x100

/-- The `WriterError` enum of `src/writer.rs`. -/
inductive WriterError where
  | DataExceedsMaximumLength (len : Nat)
  | MissingEndOfFileRecord
  | MultipleEndOfFileRecords (count : Nat)
  deriving DecidableEq, Repr

/-- One uppercase hexadecimal digit, as produced by Rust `{:02X}` formatting
for a digit value below 16. -/
def hexDigit (n : Nat) : Char :=
  if n < 10 then Char.ofNat (48 + n) else Char.ofNat (55 + n)

/-- Rust `format!("\x7b:02X\x7d", byte)` for a byte value: two uppercase
hexadecimal digits, zero padded (a `u8` is below 0x100, so exactly two
digits are produced). -/
def toHexByte (b : Nat) : String :=
  String.mk [hexDigit (b / 16), hexDigit (b % 16)]

/-- `format_record` of `src/writer.rs`: layout bytes are length, address
high, address low, type code, the payload, then the checksum over all the
preceding bytes; the rendering folds the two-digit byte strings onto the
start code. -/
def format_record (record_type : Nat) (address : Nat) (data : List Nat) :
    Except WriterError String :=
  if data.length > 0xFF then
    .error (.DataExceedsMaximumLength data.length)
  else
    let data_region : List Nat :=
      [data.length % 256,
       (address &&& 0xFF00) >>> 8,
       address &&& 0x00FF,
       record_type] ++ data
    let data_region := data_region ++ [checksum data_region]
    .ok ((data_region.map toHexByte).foldl (fun acc s => acc ++ s) ":")

/-- `Record::to_string` of `src/writer.rs`: dispatches to `format_record`
with the variant's type code, address field, and payload bytes. -/
def Record.to_string : Record → Except WriterError String
  | r@(.data offset value) =>
      format_record r.record_type offset value
  | r@.endOfFile =>
      format_record r.record_type 0x0000 []
  | r@(.extendedSegmentAddress address) =>
      format_record r.record_type 0x0000
        [((address &&& 0xFF00) >>> 8) % 256,
         ((address &&& 0x00FF) >>> 0) % 256]
  | r@(.startSegmentAddress cs ip) =>
      format_record r.record_type 0x0000
        [((cs &&& 0xFF00) >>> 8) % 256,
         ((cs &&& 0x00FF) >>> 0) % 256,
         ((ip &&& 0xFF00) >>> 8) % 256,
         ((ip &&& 0x00FF) >>> 0) % 256]
  | r@(.extendedLinearAddress address) =>
      format_record r.record_type 0x0000
        [((address &&& 0xFF00) >>> 8) % 256,
         ((address &&& 0x00FF) >>> 0) % 256]
  | r@(.startLinearAddress address) =>
      format_record r.record_type 0x0000
        [((address &&& 0xFF000000) >>> 24) % 256,
         ((address &&& 0x00FF0000) >>> 16) % 256,
         ((address &&& 0x0000FF00) >>> 8) % 256,
         ((address &&& 0x000000FF) >>> 0) % 256]

/-- The fail-fast `map(to_string).collect::<Result<Vec<String>, _>>()` step of
`create_object_file_representation`: encodes records left to right,
returning the first error, or the list of encoded lines in order. -/
def encodeRecords : List Record → Except WriterError (List String)
  | [] => .ok []
  | r :: rest =>
    match r.to_string with
    | .error e => .error e
    | .ok s =>
      match encodeRecords rest with
      | .error e => .error e
      | .ok ss => .ok (s :: ss)

/-- Whether a record is the `EndOfFile` variant, as tested by the filter in
`create_object_file_representation`. -/
def isEndOfFileRecord : Record → Bool
  | .endOfFile => true
  | _ => false

/-- `create_object_file_representation` of `src/writer.rs`: requires the last
record to be `EndOfFile`, then requires at most one `EndOfFile` record,
then encodes every record and joins the lines with a newline. -/
def create_object_file_representation (records : List Record) :
    Except WriterError String :=
  match records.getLast? with
  | some .endOfFile =>
    let eof_record_count := (records.filter isEndOfFileRecord).length
    if eof_record_count > 1 then
      .error (.MultipleEndOfFileRecords eof_record_count)
    else
      match encodeRecords records with
      | .error e => .error e
      | .ok list => .ok (String.intercalate "\n" list)
  | _ => .error .MissingEndOfFileRecord

/-- The full layout byte list of an encoded record: length, address high,
address low, type code, payload, and the checksum over the preceding
bytes, exactly as `format_record` builds its `data_region`. -/
def recordLayoutBytes (record_type address : Nat) (data : List Nat) : List Nat :=
  let region : List Nat :=
    [data.length % 256,
     (address &&& 0xFF00) >>> 8,
     address &&& 0x00FF,
     record_type] ++ data
  region ++ [checksum region]

/-- Concatenation of the two-digit hexadecimal renderings of a byte list. -/
def hexConcat (bytes : List Nat) : String :=
  (bytes.map toHexByte).foldl (fun acc s => acc ++ s) ""

/-- The 16-bit address field each variant passes to `format_record`:
the record's `offset` for `Data`, `0x0000` for every other variant. -/
def Record.addressField : Record → Nat
  | .data offset _ => offset
  | _ => 0x0000

/-- The payload byte list each variant passes to `format_record`. -/
def Record.payloadBytes : Record → List Nat
  | .data _ value => value
  | .endOfFile => []
  | .extendedSegmentAddress address =>
      [((address &&& 0xFF00) >>> 8) % 256,
       ((address &&& 0x00FF) >>> 0) % 256]
  | .startSegmentAddress cs ip =>
      [((cs &&& 0xFF00) >>> 8) % 256,
       ((cs &&& 0x00FF) >>> 0) % 256,
       ((ip &&& 0xFF00) >>> 8) % 256,
       ((ip &&& 0x00FF) >>> 0) % 256]
  | .extendedLinearAddress address =>
      [((address &&& 0xFF00) >>> 8) % 256,
       ((address &&& 0x00FF) >>> 0) % 256]
  | .startLinearAddress address =>
      [((address &&& 0xFF000000) >>> 24) % 256,
       ((address &&& 0x00FF0000) >>> 16) % 256,
       ((address &&& 0x0000FF00) >>> 8) % 256,
       ((address &&& 0x000000FF) >>> 0) % 256]

/-- A character is an uppercase hexadecimal digit: `0`-`9` or `A`-`F`. -/
def isUpperHexDigit (c : Char) : Bool :=
  (decide ('0' ≤ c) && decide (c ≤ '9')) || (decide ('A' ≤ c) && decide (c ≤ 'F'))

/-- Well-formedness of a record, expressing the Rust field types:
`u16` fields are below `2^16`, `u32` fields below `2^32`, and `Vec<u8>`
entries below `2^8`. -/
def Record.wf : Record → Prop
  | .data offset value => offset < 2 ^ 16 ∧ ∀ b ∈ value, b < 2 ^ 8
  | .endOfFile => True
  | .extendedSegmentAddress address => address < 2 ^ 16
  | .startSegmentAddress cs ip => cs < 2 ^ 16 ∧ ip < 2 ^ 16
  | .extendedLinearAddress address => address < 2 ^ 16
  | .startLinearAddress address => address < 2 ^ 32

/-- The big-endian two-byte rendering of a 16-bit value, as the spec words
it: high byte then low byte. -/
def bigEndian16 (a : Nat) : List Nat :=
  [a / 2 ^ 8, a % 2 ^ 8]

/-- The big-endian four-byte rendering of a 32-bit value, as the spec words
it: most significant byte first. -/
def bigEndian32 (a : Nat) : List Nat :=
  [a / 2 ^ 24, a / 2 ^ 16 % 2 ^ 8, a / 2 ^ 8 % 2 ^ 8, a % 2 ^ 8]

/-- The payload the spec's data-model table in section 3 prescribes for each
variant, phrased with the spec's big-endian wording (division and modulus
rather than the source's masks and shifts). -/
def specPayload : Record → List Nat
  | .data _ value => value
  | .endOfFile => []
  | .extendedSegmentAddress address => bigEndian16 address
  | .startSegmentAddress cs ip => bigEndian16 cs ++ bigEndian16 ip
  | .extendedLinearAddress address => bigEndian16 address
  | .startLinearAddress address => bigEndian32 address

/-- Whether a record is the `Data` variant. -/
def Record.isData : Record → Bool
  | .data _ _ => true
  | _ => false

theorem to_string_eq_format (r : Record) :
    r.to_string = format_record r.record_type r.addressField r.payloadBytes := by
  cases r <;> rfl

theorem record_type_lt (r : Record) : r.record_type < 256 := by
  cases r <;> simp [Record.record_type]

theorem recordLayoutBytes_length (record_type address : Nat) (data : List Nat) :
    (recordLayoutBytes record_type address data).length = 5 + data.length := by
  simp only [recordLayoutBytes, List.length_append, List.length_cons,
    List.length_nil]
  omega

theorem create_eq_of_last_eof (records : List Record)
    (hlast : records.getLast? = some Record.endOfFile) :
    create_object_file_representation records =
      (if (records.filter isEndOfFileRecord).length > 1 then
        .error (.MultipleEndOfFileRecords (records.filter isEndOfFileRecord).length)
      else
        match encodeRecords records with
        | .error e => .error e
        | .ok list => .ok (String.intercalate "\n" list)) := by
  unfold create_object_file_representation
  rw [hlast]

theorem encodeRecords_append_error (pre : List Record) (r : Record)
    (post : List Record) (e : WriterError)
    (hpre : ∀ p ∈ pre, ∃ s, p.to_string = .ok s)
    (hr : r.to_string = .error e) :
    encodeRecords (pre ++ r :: post) = .error e := by
  induction pre with
  | nil => simp [encodeRecords, hr]
  | cons p ps ih =>
      obtain ⟨s, hs⟩ := hpre p (List.mem_cons_self ..)
      have ih' := ih (fun q hq => hpre q (List.mem_cons_of_mem _ hq))
      simp only [List.cons_append, encodeRecords, hs, List.append_eq, ih']

theorem and_div_two_pow (a b k : Nat) :
    (a &&& b) / 2 ^ k = a / 2 ^ k &&& b / 2 ^ k := by
  induction k with
  | zero => simp
  | succ n ih =>
      rw [pow_succ, ← Nat.div_div_eq_div_mul, ← Nat.div_div_eq_div_mul a,
        ← Nat.div_div_eq_div_mul b, ih, Nat.and_div_two]

theorem and_byte_mask_shift (a k : Nat) :
    (a &&& (0xFF * 2 ^ k)) >>> k = a / 2 ^ k % 2 ^ 8 := by
  rw [Nat.shiftRight_eq_div_pow, and_div_two_pow,
    Nat.mul_div_cancel _ (Nat.pos_pow_of_pos k (by omega)),
    show (0xFF : Nat) = 2 ^ 8 - 1 by norm_num,
    Nat.and_pow_two_sub_one_eq_mod]

theorem and_low_byte (a : Nat) : a &&& 0x00FF = a % 2 ^ 8 := by
  rw [show (0x00FF : Nat) = 2 ^ 8 - 1 by norm_num,
    Nat.and_pow_two_sub_one_eq_mod]

theorem payloadBytes_eq_specPayload (r : Record) (hwf : r.wf) :
    r.payloadBytes = specPayload r := by
  cases r with
  | data offset value => rfl
  | endOfFile => rfl
  | extendedSegmentAddress address =>
      have ha : address < 2 ^ 16 := hwf
      simp only [Record.payloadBytes, specPayload, bigEndian16,
        show (0xFF00 : Nat) = 0xFF * 2 ^ 8 by norm_num, and_byte_mask_shift,
        Nat.shiftRight_zero, and_low_byte, List.cons.injEq, and_true]
      omega
  | startSegmentAddress cs ip =>
      obtain ⟨hcs, hip⟩ := hwf
      simp only [Record.payloadBytes, specPayload, bigEndian16, List.cons_append,
        List.nil_append, show (0xFF00 : Nat) = 0xFF * 2 ^ 8 by norm_num,
        and_byte_mask_shift, Nat.shiftRight_zero, and_low_byte,
        List.cons.injEq, and_true]
      omega
  | extendedLinearAddress address =>
      have ha : address < 2 ^ 16 := hwf
      simp only [Record.payloadBytes, specPayload, bigEndian16,
        show (0xFF00 : Nat) = 0xFF * 2 ^ 8 by norm_num, and_byte_mask_shift,
        Nat.shiftRight_zero, and_low_byte, List.cons.injEq, and_true]
      omega
  | startLinearAddress address =>
      have ha : address < 2 ^ 32 := hwf
      simp only [Record.payloadBytes, specPayload, bigEndian32,
        show (0xFF000000 : Nat) = 0xFF * 2 ^ 24 by norm_num,
        show (0x00FF0000 : Nat) = 0xFF * 2 ^ 16 by norm_num,
        show (0x0000FF00 : Nat) = 0xFF * 2 ^ 8 by norm_num,
        show (0x000000FF : Nat) = 0x00FF by norm_num,
        and_byte_mask_shift, Nat.shiftRight_zero, and_low_byte,
        List.cons.injEq, and_true]
      omega

theorem foldl_append_strings (l : List String) (s : String) :
    l.foldl (fun acc t => acc ++ t) s = s ++ l.foldl (fun acc t => acc ++ t) "" := by
  induction l generalizing s with
  | nil => simp [List.foldl]
  | cons x xs ih =>
      simp only [List.foldl]
      rw [ih (s ++ x), ih ("" ++ x), ← String.append_assoc]
      simp

theorem format_record_ok (record_type address : Nat) (data : List Nat)
    (h : data.length ≤ 0xFF) :
    format_record record_type address data =
      .ok (":" ++ hexConcat (recordLayoutBytes record_type address data)) := by
  rw [format_record, if_neg (by omega)]
  show Except.ok
      (((recordLayoutBytes record_type address data).map toHexByte).foldl
        (fun acc s => acc ++ s) ":") = _
  rw [foldl_append_strings]
  rfl

theorem hexConcat_length (bytes : List Nat) :
    (hexConcat bytes).length = 2 * bytes.length := by
  suffices h : ∀ s : String,
      ((bytes.map toHexByte).foldl (fun acc t => acc ++ t) s).length
        = s.length + 2 * bytes.length by
    simpa [hexConcat] using h ""
  induction bytes with
  | nil => intro s; simp
  | cons b bs ih =>
      intro s
      simp only [List.map, List.foldl, ih, String.length_append]
      simp [toHexByte]
      omega

theorem hexDigit_upperHex : ∀ n < 16, isUpperHexDigit (hexDigit n) = true := by
  decide

theorem toHexByte_upperHex (b : Nat) (hb : b < 256) :
    (toHexByte b).length = 2 ∧ ∀ c ∈ (toHexByte b).data, isUpperHexDigit c = true := by
  refine ⟨rfl, ?_⟩
  intro c hc
  have hc' : c = hexDigit (b / 16) ∨ c = hexDigit (b % 16) := by
    simpa [toHexByte] using hc
  rcases hc' with h | h
  · exact h ▸ hexDigit_upperHex _ (by omega)
  · exact h ▸ hexDigit_upperHex _ (Nat.mod_lt _ (by omega))

theorem checksum_lt (data : List Nat) : checksum data < 256 := by
  have : data.sum % 0x100 < 0x100 := Nat.mod_lt _ (by omega)
  unfold checksum
  omega

theorem recordLayoutBytes_lt (record_type address : Nat) (data : List Nat)
    (hrt : record_type < 256) (hd : ∀ b ∈ data, b < 256) :
    ∀ b ∈ recordLayoutBytes record_type address data, b < 256 := by
  intro b hb
  have hhi : (address &&& 0xFF00) >>> 8 < 256 := by
    have h1 : address &&& 0xFF00 ≤ 0xFF00 := Nat.and_le_right
    have h2 : (address &&& 0xFF00) >>> 8 = (address &&& 0xFF00) / 2 ^ 8 :=
      Nat.shiftRight_eq_div_pow _ _
    omega
  have hlo : address &&& 0x00FF < 256 := by
    have := Nat.and_le_right (n := address) (m := 0x00FF)
    omega
  simp only [recordLayoutBytes, List.mem_append, List.mem_cons,
    List.not_mem_nil, or_false] at hb
  rcases hb with ((h | h | h | h) | hmem) | h
  · exact h ▸ Nat.mod_lt _ (by omega)
  · exact h ▸ hhi
  · exact h ▸ hlo
  · exact h ▸ hrt
  · exact hd b hmem
  · exact h ▸ checksum_lt _

/-- Claim C1: for every record whose payload length is at most 255 (payload
entries being byte values), `Record.to_string` returns a string consisting
of a leading colon followed by each layout byte rendered as exactly two
uppercase hexadecimal digits with no separators, where the layout bytes
are, in order, the payload length, the 16-bit address big-endian, the type
code, the payload bytes and the checksum byte, and the string's length is
exactly `1 + 2*(1+2+1+len+1)` characters. -/
theorem C1_layout_rendering (r : Record)
    (hlen : (Record.payloadBytes r).length ≤ 255)
    (hbytes : ∀ b ∈ Record.payloadBytes r, b < 256) :
    ∃ s : String,
      r.to_string = .ok s ∧
      s = ":" ++ hexConcat (recordLayoutBytes r.record_type r.addressField
            r.payloadBytes) ∧
      (∀ b ∈ recordLayoutBytes r.record_type r.addressField r.payloadBytes,
          (toHexByte b).length = 2 ∧ ∀ c ∈ (toHexByte b).data, isUpperHexDigit c = true) ∧
      s.length = 1 + 2 * (1 + 2 + 1 + (Record.payloadBytes r).length + 1) := by
  refine ⟨":" ++ hexConcat (recordLayoutBytes r.record_type r.addressField
      r.payloadBytes), ?_, rfl, ?_, ?_⟩
  · rw [to_string_eq_format]
    exact format_record_ok _ _ _ hlen
  · intro b hb
    exact toHexByte_upperHex b
      (recordLayoutBytes_lt _ _ _ (record_type_lt r) hbytes b hb)
  · rw [String.length_append, hexConcat_length, recordLayoutBytes_length,
      show (":" : String).length = 1 from rfl]
    omega

/-- Witness for C1 at the `EndOfFile` record. -/
theorem C1_layout_rendering_witness :
    (Record.payloadBytes Record.endOfFile).length ≤ 255 ∧
    (∀ b ∈ Record.payloadBytes Record.endOfFile, b < 256) ∧
    ∃ s : String,
      Record.endOfFile.to_string = .ok s ∧
      s = ":" ++ hexConcat (recordLayoutBytes Record.endOfFile.record_type
            Record.endOfFile.addressField Record.endOfFile.payloadBytes) ∧
      (∀ b ∈ recordLayoutBytes Record.endOfFile.record_type
          Record.endOfFile.addressField Record.endOfFile.payloadBytes,
          (toHexByte b).length = 2 ∧ ∀ c ∈ (toHexByte b).data, isUpperHexDigit c = true) ∧
      s.length = 1 + 2 * (1 + 2 + 1 + (Record.payloadBytes Record.endOfFile).length + 1) :=
  ⟨by decide, by decide,
    C1_layout_rendering Record.endOfFile (by decide) (by decide)⟩

/-- Claim C2: the records `Data{offset:0x0010, value:[0x48,0x65,0x6C,0x6C,0x6F]}`,
`EndOfFile` and `ExtendedSegmentAddress(0x0100)` encode via
`Record.to_string` to exactly `:0500100048656C6C6FF7`, `:00000001FF` and
`:020000020100FB` respectively. -/
theorem C2_concrete_encodings :
    (Record.data 0x0010 [0x48, 0x65, 0x6C, 0x6C, 0x6F]).to_string
        = .ok ":0500100048656C6C6FF7" ∧
    Record.endOfFile.to_string = .ok ":00000001FF" ∧
    (Record.extendedSegmentAddress 0x0100).to_string = .ok ":020000020100FB" :=
  ⟨rfl, rfl, rfl⟩

/-- Claim C3: the checksum of a byte sequence is a single byte equal to the
two's-complement of the byte sum modulo 256, so the sum plus the checksum
is congruent to 0 modulo 256; and every encoded record's layout ends in
the checksum computed over all preceding layout bytes. -/
theorem C3_checksum_correct (b : List Nat) (record_type address : Nat)
    (data : List Nat) (h : data.length ≤ 255) :
    checksum b < 256 ∧
    (b.sum + checksum b) % 256 = 0 ∧
    format_record record_type address data =
      .ok (":" ++ hexConcat (recordLayoutBytes record_type address data)) ∧
    (recordLayoutBytes record_type address data).getLast? =
      some (checksum ((recordLayoutBytes record_type address data).dropLast)) := by
  refine ⟨checksum_lt b, ?_, format_record_ok _ _ _ h, ?_⟩
  · unfold checksum
    omega
  · simp only [recordLayoutBytes, List.getLast?_concat, List.dropLast_concat]

/-- Witness for C3 at a concrete byte sequence and record. -/
theorem C3_checksum_correct_witness :
    checksum [0x05, 0x00, 0x10] < 256 ∧
    ([0x05, 0x00, 0x10].sum + checksum [0x05, 0x00, 0x10]) % 256 = 0 ∧
    format_record 0x01 0x0000 [] =
      .ok (":" ++ hexConcat (recordLayoutBytes 0x01 0x0000 [])) ∧
    (recordLayoutBytes 0x01 0x0000 []).getLast? =
      some (checksum ((recordLayoutBytes 0x01 0x0000 []).dropLast)) :=
  C3_checksum_correct [0x05, 0x00, 0x10] 0x01 0x0000 [] (by decide)

/-- Claim C4: a `Data` record whose payload exceeds 255 bytes fails to encode
with `DataExceedsMaximumLength` carrying the exact payload length, and no
output string is produced. -/
theorem C4_data_exceeds_maximum_length (offset : Nat) (value : List Nat)
    (h : value.length > 255) :
    (Record.data offset value).to_string =
      .error (.DataExceedsMaximumLength value.length) := by
  show format_record (Record.data offset value).record_type offset value = _
  rw [format_record, if_pos h]

/-- Witness for C4 at a 256-byte payload. -/
theorem C4_data_exceeds_maximum_length_witness :
    (List.replicate 256 (0 : Nat)).length > 255 ∧
    (Record.data 0 (List.replicate 256 (0 : Nat))).to_string =
      .error (.DataExceedsMaximumLength (List.replicate 256 (0 : Nat)).length) :=
  ⟨by rw [List.length_replicate]; omega,
    C4_data_exceeds_maximum_length 0 _ (by rw [List.length_replicate]; omega)⟩

/-- Claim C5: for every record sequence that is empty or whose last element
is not `EndOfFile`, `create_object_file_representation` fails with
`MissingEndOfFileRecord`; this holds regardless of how many `EndOfFile`
records the sequence contains, so that check takes precedence over the
count-of-`EndOfFile` check when both are violated. -/
theorem C5_missing_eof_precedence (records : List Record)
    (h : records = [] ∨ records.getLast? ≠ some Record.endOfFile) :
    create_object_file_representation records =
      .error .MissingEndOfFileRecord := by
  rcases h with h | h
  · subst h; rfl
  · unfold create_object_file_representation
    cases hl : records.getLast? with
    | none => rfl
    | some r =>
        rw [hl] at h
        cases r with
        | endOfFile => exact absurd rfl h
        | data offset value => rfl
        | extendedSegmentAddress address => rfl
        | startSegmentAddress cs ip => rfl
        | extendedLinearAddress address => rfl
        | startLinearAddress address => rfl

/-- Witness for C5 at a sequence with two `EndOfFile` records none of which
is last, so both structural checks are violated at once. -/
theorem C5_missing_eof_precedence_witness :
    ([Record.endOfFile, Record.endOfFile, Record.data 0 []] = [] ∨
      [Record.endOfFile, Record.endOfFile, Record.data 0 []].getLast?
        ≠ some Record.endOfFile) ∧
    create_object_file_representation
      [Record.endOfFile, Record.endOfFile, Record.data 0 []] =
      .error .MissingEndOfFileRecord :=
  ⟨Or.inr (by decide),
    C5_missing_eof_precedence _ (Or.inr (by decide))⟩

/-- Claim C6 counterexample: the sequence
`[EndOfFile, EndOfFile, Data{offset:0,value:[]}]` contains two `EndOfFile`
records, yet `create_object_file_representation` fails with
`MissingEndOfFileRecord`, not with `MultipleEndOfFileRecords(2)`, because
the last-element check runs first. -/
theorem C6_counterexample :
    2 ≤ ([Record.endOfFile, Record.endOfFile, Record.data 0 []].filter
        isEndOfFileRecord).length ∧
    create_object_file_representation
        [Record.endOfFile, Record.endOfFile, Record.data 0 []] =
      .error .MissingEndOfFileRecord ∧
    ¬ (create_object_file_representation
          [Record.endOfFile, Record.endOfFile, Record.data 0 []] =
        .error (.MultipleEndOfFileRecords 2)) := by
  refine ⟨by decide, rfl, ?_⟩
  intro hcontra
  have h0 : create_object_file_representation
      [Record.endOfFile, Record.endOfFile, Record.data 0 []] =
      .error .MissingEndOfFileRecord := rfl
  rw [h0] at hcontra
  exact WriterError.noConfusion (Except.error.inj hcontra)

/-- Claim C6 (amended): for every record sequence whose last element is
`EndOfFile` and which contains two or more `EndOfFile` records,
`create_object_file_representation` fails with
`MultipleEndOfFileRecords(count)` where `count` is the exact total number
of `EndOfFile` records, regardless of where the earlier `EndOfFile`
records appear. -/
theorem C6_multiple_eof_amended (records : List Record)
    (hlast : records.getLast? = some Record.endOfFile)
    (hcount : 2 ≤ (records.filter isEndOfFileRecord).length) :
    create_object_file_representation records =
      .error (.MultipleEndOfFileRecords
        ((records.filter isEndOfFileRecord).length)) := by
  rw [create_eq_of_last_eof records hlast, if_pos (by omega)]

/-- Witness for the amended C6 at a sequence with an `EndOfFile` record in
the middle and one at the end. -/
theorem C6_multiple_eof_amended_witness :
    [Record.endOfFile, Record.data 0 [], Record.endOfFile].getLast?
      = some Record.endOfFile ∧
    2 ≤ ([Record.endOfFile, Record.data 0 [], Record.endOfFile].filter
        isEndOfFileRecord).length ∧
    create_object_file_representation
        [Record.endOfFile, Record.data 0 [], Record.endOfFile] =
      .error (.MultipleEndOfFileRecords
        (([Record.endOfFile, Record.data 0 [], Record.endOfFile].filter
          isEndOfFileRecord).length)) :=
  ⟨by decide, by decide, C6_multiple_eof_amended _ (by decide) (by decide)⟩

/-- Claim C7: every well-formed record encodes through `format_record` with
an address field equal to the record's `offset` for the `Data` variant and
`0x0000` for every other variant, and with the payload the spec's table
prescribes: the `Data` value verbatim, nothing for `EndOfFile`, and the
address-like fields big-endian (2 bytes for `ExtendedSegmentAddress` and
`ExtendedLinearAddress`, `cs` then `ip` in 4 bytes for
`StartSegmentAddress`, 4 bytes for `StartLinearAddress`). -/
theorem C7_address_field_and_payload (r : Record) (hwf : r.wf) :
    r.to_string = format_record r.record_type r.addressField r.payloadBytes ∧
    (∀ offset value, r = .data offset value → r.addressField = offset) ∧
    (r.isData = false → r.addressField = 0x0000) ∧
    r.payloadBytes = specPayload r := by
  refine ⟨to_string_eq_format r, ?_, ?_, payloadBytes_eq_specPayload r hwf⟩
  · intro offset value h
    subst h
    rfl
  · intro h
    cases r with
    | data offset value => simp [Record.isData] at h
    | endOfFile => rfl
    | extendedSegmentAddress address => rfl
    | startSegmentAddress cs ip => rfl
    | extendedLinearAddress address => rfl
    | startLinearAddress address => rfl

/-- Witness for C7 at `ExtendedSegmentAddress(0x0100)`. -/
theorem C7_address_field_and_payload_witness :
    (Record.extendedSegmentAddress 0x0100).wf ∧
    ((Record.extendedSegmentAddress 0x0100).to_string =
        format_record (Record.extendedSegmentAddress 0x0100).record_type
          (Record.extendedSegmentAddress 0x0100).addressField
          (Record.extendedSegmentAddress 0x0100).payloadBytes ∧
      (∀ offset value,
          Record.extendedSegmentAddress 0x0100 = .data offset value →
          (Record.extendedSegmentAddress 0x0100).addressField = offset) ∧
      ((Record.extendedSegmentAddress 0x0100).isData = false →
          (Record.extendedSegmentAddress 0x0100).addressField = 0x0000) ∧
      (Record.extendedSegmentAddress 0x0100).payloadBytes =
        specPayload (Record.extendedSegmentAddress 0x0100)) :=
  ⟨by norm_num [Record.wf],
    C7_address_field_and_payload _ (by norm_num [Record.wf])⟩

/-- Claim C8: a record sequence that passes both structural checks and whose
records all encode successfully assembles to the per-record lines in the
original order joined by single newlines with no trailing newline, and in
particular `[Data{offset:0x0010,value:[0x48,0x65,0x6C,0x6C,0x6F]},
EndOfFile]` assembles to the two example lines joined by one newline. -/
theorem C8_assembly_joins_lines (records : List Record) (lines : List String)
    (hlast : records.getLast? = some Record.endOfFile)
    (hcount : (records.filter isEndOfFileRecord).length = 1)
    (henc : encodeRecords records = .ok lines) :
    create_object_file_representation records =
      .ok (String.intercalate "\n" lines) ∧
    create_object_file_representation
        [Record.data 0x0010 [0x48, 0x65, 0x6C, 0x6C, 0x6F], Record.endOfFile] =
      .ok (":0500100048656C6C6FF7" ++ "\n" ++ ":00000001FF") := by
  refine ⟨?_, rfl⟩
  rw [create_eq_of_last_eof records hlast, if_neg (by omega), henc]

/-- Witness for C8 at the spec's concrete two-record object. -/
theorem C8_assembly_joins_lines_witness :
    [Record.data 0x0010 [0x48, 0x65, 0x6C, 0x6C, 0x6F],
        Record.endOfFile].getLast? = some Record.endOfFile ∧
    (([Record.data 0x0010 [0x48, 0x65, 0x6C, 0x6C, 0x6F],
        Record.endOfFile].filter isEndOfFileRecord).length = 1) ∧
    encodeRecords [Record.data 0x0010 [0x48, 0x65, 0x6C, 0x6C, 0x6F],
        Record.endOfFile] = .ok [":0500100048656C6C6FF7", ":00000001FF"] ∧
    (create_object_file_representation
        [Record.data 0x0010 [0x48, 0x65, 0x6C, 0x6C, 0x6F], Record.endOfFile] =
      .ok (String.intercalate "\n" [":0500100048656C6C6FF7", ":00000001FF"]) ∧
    create_object_file_representation
        [Record.data 0x0010 [0x48, 0x65, 0x6C, 0x6C, 0x6F], Record.endOfFile] =
      .ok (":0500100048656C6C6FF7" ++ "\n" ++ ":00000001FF")) :=
  ⟨by decide, by decide, rfl,
    C8_assembly_joins_lines _ _ (by decide) (by decide) rfl⟩

/-- Claim C9: a record sequence that passes both structural checks but whose
records do not all encode — every record before some failing record
encodes, and that record fails with error `e` — makes
`create_object_file_representation` return exactly that first error, with
no string output and regardless of what follows the failing record. -/
theorem C9_fail_fast (pre : List Record) (r : Record) (post : List Record)
    (e : WriterError)
    (hlast : (pre ++ r :: post).getLast? = some Record.endOfFile)
    (hcount : ((pre ++ r :: post).filter isEndOfFileRecord).length = 1)
    (hpre : ∀ p ∈ pre, ∃ s, p.to_string = .ok s)
    (hr : r.to_string = .error e) :
    create_object_file_representation (pre ++ r :: post) = .error e := by
  rw [create_eq_of_last_eof _ hlast, if_neg (by omega),
    encodeRecords_append_error pre r post e hpre hr]

set_option maxRecDepth 4096 in
/-- Witness for C9: an oversized `Data` record followed by `EndOfFile`
aborts assembly with the data-length error. -/
theorem C9_fail_fast_witness :
    (([] : List Record) ++ Record.data 0 (List.replicate 256 0) ::
        [Record.endOfFile]).getLast? = some Record.endOfFile ∧
    ((([] : List Record) ++ Record.data 0 (List.replicate 256 0) ::
        [Record.endOfFile]).filter isEndOfFileRecord).length = 1 ∧
    (∀ p ∈ ([] : List Record), ∃ s, p.to_string = .ok s) ∧
    (Record.data 0 (List.replicate 256 0)).to_string =
      .error (.DataExceedsMaximumLength 256) ∧
    create_object_file_representation
        (([] : List Record) ++ Record.data 0 (List.replicate 256 0) ::
          [Record.endOfFile]) =
      .error (.DataExceedsMaximumLength 256) :=
  ⟨by decide, by decide, fun p hp => absurd hp (List.not_mem_nil p), rfl,
    C9_fail_fast [] (Record.data 0 (List.replicate 256 0)) [Record.endOfFile]
      (WriterError.DataExceedsMaximumLength 256) (by decide) (by decide)
      (fun p hp => absurd hp (List.not_mem_nil p)) rfl⟩

/-- Claim C10: every record that is not the `Data` variant always encodes
successfully: its payload has fixed size 0, 2 or 4 bytes, below the
255-byte limit, so `Record.to_string` never returns an error for it. -/
theorem C10_non_data_always_ok (r : Record) (h : r.isData = false) :
    ((Record.payloadBytes r).length = 0 ∨ (Record.payloadBytes r).length = 2 ∨
      (Record.payloadBytes r).length = 4) ∧
    (Record.payloadBytes r).length ≤ 255 ∧
    ∃ s, r.to_string = .ok s := by
  cases r with
  | data offset value => simp [Record.isData] at h
  | endOfFile =>
      exact ⟨Or.inl rfl, by decide,
        ⟨_, by rw [to_string_eq_format]; exact format_record_ok _ _ _ (by decide)⟩⟩
  | extendedSegmentAddress address =>
      refine ⟨Or.inr (Or.inl rfl), by show (2 : Nat) ≤ 255; norm_num, ?_⟩
      rw [to_string_eq_format]
      exact ⟨_, format_record_ok _ _ _ (by show (2 : Nat) ≤ 255; norm_num)⟩
  | startSegmentAddress cs ip =>
      refine ⟨Or.inr (Or.inr rfl), by show (4 : Nat) ≤ 255; norm_num, ?_⟩
      rw [to_string_eq_format]
      exact ⟨_, format_record_ok _ _ _ (by show (4 : Nat) ≤ 255; norm_num)⟩
  | extendedLinearAddress address =>
      refine ⟨Or.inr (Or.inl rfl), by show (2 : Nat) ≤ 255; norm_num, ?_⟩
      rw [to_string_eq_format]
      exact ⟨_, format_record_ok _ _ _ (by show (2 : Nat) ≤ 255; norm_num)⟩
  | startLinearAddress address =>
      refine ⟨Or.inr (Or.inr rfl), by show (4 : Nat) ≤ 255; norm_num, ?_⟩
      rw [to_string_eq_format]
      exact ⟨_, format_record_ok _ _ _ (by show (4 : Nat) ≤ 255; norm_num)⟩

/-- Witness for C10 at `StartLinearAddress(0)`. -/
theorem C10_non_data_always_ok_witness :
    (Record.startLinearAddress 0).isData = false ∧
    (((Record.payloadBytes (Record.startLinearAddress 0)).length = 0 ∨
        (Record.payloadBytes (Record.startLinearAddress 0)).length = 2 ∨
        (Record.payloadBytes (Record.startLinearAddress 0)).length = 4) ∧
      (Record.payloadBytes (Record.startLinearAddress 0)).length ≤ 255 ∧
      ∃ s, (Record.startLinearAddress 0).to_string = .ok s) :=
  ⟨rfl, C10_non_data_always_ok _ rfl⟩

end Ihex
